import Mathlib

/-!
Verification development for the `currency-converter` service
(`src/currency_converter.py`).  The rate-cache subsystem is shallowly
embedded: the module-level dict `exchange_rates` becomes an association
list passed explicitly, Python floats become `ℚ`, and code that can
raise (`KeyError`, `ZeroDivisionError`) returns `Option`.  Mutation of
the dict inside `update_all_exchange_rates` is modelled by threading the
matrix through the loop, so a mid-loop exception leaves exactly the
partially-updated matrix the Python code leaves behind.
-/

namespace CurrencyConverter

/-- A quote set: currency code ↦ rate against the base (Python `rates` dict). -/
abbrev Rates := List (String × ℚ)

/-- One row of the matrix: target code ↦ factor (Python inner dict). -/
abbrev Row := List (String × ℚ)

/-- The published matrix: source code ↦ row (Python `exchange_rates` dict). -/
abbrev Matrix := List (String × Row)

/-- Association-list lookup, modelling Python dict `d.get(k)` / `k in d`. -/
def lookupA {α : Type} : List (String × α) → String → Option α
  | [], _ => none
  | (k, v) :: t, k' => if k' = k then some v else lookupA t k'

/-- Association-list update, modelling Python dict assignment `d[k] = v`. -/
def setA {α : Type} : List (String × α) → String → α → List (String × α)
  | [], k, v => [(k, v)]
  | (k', v') :: t, k, v =>
      if k' = k then (k, v) :: t else (k', v') :: setA t k v

/-- Constant `SUPPORTED_CURRENCIES` from the source, in dict insertion order. -/
def SUPPORTED_CURRENCIES : List (String × String) :=
  [("USD", "United States Dollar"),
   ("EUR", "Euro"),
   ("JPY", "Japenese Yen"),
   ("GBP", "British Pound")]

/-- The key list `SUPPORTED_CURRENCIES.keys()`, in insertion order. -/
def supportedCodes : List String := SUPPORTED_CURRENCIES.map Prod.fst

/-- Function `calculate_exchange_rate(base_currency, src_currency, tgt_currency, rates)`.
`none` models a raised `KeyError` (missing quote) or `ZeroDivisionError`
(zero denominator); Python evaluates `rates[tgt_currency]` before the
division in the last branch, but failure order does not change `none`. -/
def calculate_exchange_rate (base_currency src_currency tgt_currency : String)
    (rates : Rates) : Option ℚ :=
  if src_currency = base_currency then
    lookupA rates tgt_currency
  else if tgt_currency = base_currency then
    match lookupA rates src_currency with
    | none => none
    | some rs => if rs = 0 then none else some (1 / rs)
  else
    match lookupA rates tgt_currency, lookupA rates src_currency with
    | some rt, some rs => if rs = 0 then none else some (rt / rs)
    | _, _ => none

/-- Inner loop of `update_all_exchange_rates` for one `src_currency`: fills
the freshly-assigned row dict one target at a time.  The Boolean is `false`
when `calculate_exchange_rate` raised, and the returned row is the partial
row the Python dict holds at that moment. -/
def buildRow (base src : String) (rates : Rates) :
    List String → Row → Row × Bool
  | [], acc => (acc, true)
  | tgt :: ts, acc =>
      if src = tgt then buildRow base src rates ts acc
      else
        match calculate_exchange_rate base src tgt rates with
        | none => (acc, false)
        | some r => buildRow base src rates ts (setA acc tgt r)

/-- Outer loop of `update_all_exchange_rates`: for each `src_currency` the
Python code first executes `exchange_rates[src_currency] = {}` and then
fills it, so on failure the matrix keeps the partial row already built. -/
def updateLoop (base : String) (rates : Rates) (allC : List String) :
    List String → Matrix → Matrix × Bool
  | [], m => (m, true)
  | c :: cs, m =>
      match buildRow base c rates allC [] with
      | (row, true) => updateLoop base rates allC cs (setA m c row)
      | (row, false) => (setA m c row, false)

/-- Function `update_all_exchange_rates(base, rates)` acting on the current
`exchange_rates` matrix.  `base`/`rates` are `Option`s because the caller
passes `data.get(...)`; `None in (base, rates)` takes the early return.
The Boolean is `true` iff the update ran to completion (no exception). -/
def update_all_exchange_rates (base : Option String) (rates : Option Rates)
    (m : Matrix) : Matrix × Bool :=
  match base, rates with
  | some b, some rs => updateLoop b rs supportedCodes supportedCodes m
  | _, _ => (m, true)

/-- Result of the provider call inside `fetch_exchange_rates`:
`failure` models `urlopen`/JSON raising, `success b r` models a parsed
response with `data.get("base") = b` and `data.get("rates") = r`. -/
inductive ProviderResult : Type
  | failure : ProviderResult
  | success (base : Option String) (rates : Option Rates) : ProviderResult

/-- Function `fetch_exchange_rates(base)`: calls the provider and then
`update_all_exchange_rates`; every exception (network or mid-update) is
caught and logged, so the function returns whatever matrix state remains. -/
def fetch_exchange_rates (resp : ProviderResult) (m : Matrix) : Matrix :=
  match resp with
  | .failure => m
  | .success b r => (update_all_exchange_rates b r m).1

/-- The entry `matrix[src][tgt]` as a fallible lookup. -/
def getEntry (m : Matrix) (src tgt : String) : Option ℚ :=
  match lookupA m src with
  | none => none
  | some row => lookupA row tgt

/-- The JSON value found in the `amount` field of a request; Python's
`isinstance(amount, (int, float))` accepts exactly the `num` case. -/
inductive JVal : Type
  | num (q : ℚ)
  | str (s : String)
  | null
  deriving DecidableEq

/-- The check `isinstance(amount, (int, float))`. -/
def isNumericAmount : JVal → Bool
  | .num _ => true
  | _ => false

/-- The `data` dict of a `convert_currency` request; each field is what
`data.get(...)` returns (`none` models an absent key / JSON null). -/
structure ConvertData : Type where
  source_currency : Option String
  target_currency : Option String
  amount : JVal
  deriving DecidableEq

/-- A response payload sent back over the socket. -/
inductive Response : Type
  | conversion (source_currency target_currency : String)
      (amount converted_amount : ℚ)
  | ratesFor (row : Row)
  | supported (currencies : List (String × String))
  | error (msg : String)
  deriving DecidableEq

/-- Function `handle_convert_currency(data)` reading the matrix `m`.  Mirrors the
source: the amount type check runs first; then the membership test
`source_currency not in exchange_rates or target_currency not in
exchange_rates[source_currency]`; then the redundant `.get` whose `None`
branch answers "Exchange rate not available". -/
def handle_convert_currency (m : Matrix) (data : ConvertData) : Response :=
  match data.amount with
  | .num amount =>
      match data.source_currency with
      | none => .error "Invalid currency code"
      | some source_currency =>
          match lookupA m source_currency with
          | none => .error "Invalid currency code"
          | some row =>
              match data.target_currency with
              | none => .error "Invalid currency code"
              | some target_currency =>
                  match lookupA row target_currency with
                  | none => .error "Invalid currency code"
                  | some _ =>
                      match lookupA row target_currency with
                      | none => .error "Exchange rate not available"
                      | some exchange_rate =>
                          .conversion source_currency target_currency
                            amount (amount * exchange_rate)
  | _ => .error "Amount must be a number"

/-- Function `handle_get_exchange_rates(data)` reading the matrix `m`;
`currency_code = data.get("currency_code")`. -/
def handle_get_exchange_rates (m : Matrix) (currency_code : Option String) :
    Response :=
  match currency_code with
  | none => .error "Invalid currency code"
  | some c =>
      match lookupA m c with
      | none => .error "Invalid currency code"
      | some row => .ratesFor row

/-- Insert one item into a key-sorted list (helper for Python `sorted`). -/
def insertSorted (p : String × String) :
    List (String × String) → List (String × String)
  | [] => [p]
  | q :: t => if p.1 < q.1 then p :: q :: t else q :: insertSorted p t

/-- Ascending sort by key, the effect of Python `sorted(d.items())` on a
dict with distinct keys. -/
def sortByKey : List (String × String) → List (String × String)
  | [] => []
  | p :: t => insertSorted p (sortByKey t)

/-- Function `handle_get_supported_currencies()`:
`dict(sorted(SUPPORTED_CURRENCIES.items()))`. -/
def handle_get_supported_currencies : List (String × String) :=
  sortByKey SUPPORTED_CURRENCIES

/-- A parsed request, one constructor per `action` the main loop
dispatches on, plus the fallback for an unrecognized action. -/
inductive Request : Type
  | convert_currency (data : ConvertData)
  | get_exchange_rates (currency_code : Option String)
  | get_supported_currencies
  | unknownAction

/-- The dispatch performed by the main loop on one received message. -/
def process_request (m : Matrix) : Request → Response
  | .convert_currency d => handle_convert_currency m d
  | .get_exchange_rates c => handle_get_exchange_rates m c
  | .get_supported_currencies => .supported handle_get_supported_currencies
  | .unknownAction => .error "Unknown action"

/-- One event of the running service: either the main loop serves a
request (handlers only read `exchange_rates`), or the scheduler thread
runs `fetch_exchange_rates` (the only writer). -/
inductive Event : Type
  | request (r : Request)
  | refreshTick (resp : ProviderResult)

/-- State transition of the service on one event: the matrix afterwards,
and the response sent (requests always get exactly one response). -/
def step (m : Matrix) : Event → Matrix × Option Response
  | .request r => (m, some (process_request m r))
  | .refreshTick resp => (fetch_exchange_rates resp m, none)

/-- Whether a response is the structured error form `{"error": msg}`. -/
def isError : Response → Bool
  | .error _ => true
  | _ => false

/-- The failure condition of the membership test in
`handle_convert_currency`: `source_currency not in exchange_rates or
target_currency not in exchange_rates[source_currency]`. -/
def pairUnknown (m : Matrix) (src tgt : Option String) : Bool :=
  match src with
  | none => true
  | some s =>
      match lookupA m s with
      | none => true
      | some row =>
          match tgt with
          | none => true
          | some t => (lookupA row t).isNone

/-- The failure condition of `currency_code not in exchange_rates` in
`handle_get_exchange_rates`. -/
def codeUnknown (m : Matrix) (c : Option String) : Bool :=
  match c with
  | none => true
  | some s => (lookupA m s).isNone

theorem lookupA_setA {α : Type} (l : List (String × α)) (k k' : String)
    (v : α) :
    lookupA (setA l k v) k' = if k' = k then some v else lookupA l k' := by
  induction l with
  | nil => simp [setA, lookupA]
  | cons p t ih =>
      obtain ⟨pk, pv⟩ := p
      by_cases hpk : pk = k
      · subst hpk
        by_cases hk : k' = pk <;> simp [setA, lookupA, hk]
      · by_cases hk : k' = pk
        · subst hk
          simp [setA, lookupA, hpk, Ne.symm hpk]
        · simp [setA, lookupA, hpk, hk, ih]

theorem buildRow_lookup (base src : String) (rates : Rates) :
    ∀ (ts : List String) (acc : Row),
      (buildRow base src rates ts acc).2 = true →
      ∀ B, lookupA (buildRow base src rates ts acc).1 B =
        if B ∈ ts ∧ B ≠ src then calculate_exchange_rate base src B rates
        else lookupA acc B := by
  intro ts
  induction ts with
  | nil => intro acc _ B; simp [buildRow]
  | cons t ts ih =>
      intro acc h B
      by_cases hts : src = t
      · subst hts
        rw [show buildRow base src rates (src :: ts) acc
              = buildRow base src rates ts acc from by simp [buildRow]] at h ⊢
        rw [ih acc h B]
        by_cases hBs : B = src
        · simp [hBs]
        · simp [hBs, List.mem_cons]
      · cases hcalc : calculate_exchange_rate base src t rates with
        | none => simp [buildRow, hts, hcalc] at h
        | some r =>
            simp only [buildRow, if_neg hts, hcalc] at h ⊢
            rw [ih _ h B, lookupA_setA]
            by_cases hmem : B ∈ ts ∧ B ≠ src
            · simp [hmem, hmem.1, hmem.2, List.mem_cons]
            · by_cases hBt : B = t
              · subst hBt
                have hBs : B ≠ src := fun hc => hts (hc ▸ rfl)
                simp [hmem, hBs, hcalc, List.mem_cons]
              · simp only [if_neg hBt]
                have h1 : ¬(B ∈ ts ∧ ¬B = src) := hmem
                have h2 : ¬(B ∈ t :: ts ∧ ¬B = src) := by
                  intro hc
                  rcases List.mem_cons.mp hc.1 with hc1 | hc1
                  · exact hBt hc1
                  · exact hmem ⟨hc1, hc.2⟩
                rw [if_neg h1, if_neg h2]

theorem buildRow_calc_isSome (base src : String) (rates : Rates) :
    ∀ (ts : List String) (acc : Row),
      (buildRow base src rates ts acc).2 = true →
      ∀ t ∈ ts, t ≠ src →
        (calculate_exchange_rate base src t rates).isSome = true := by
  intro ts
  induction ts with
  | nil => intro acc _ t ht; exact absurd ht (List.not_mem_nil t)
  | cons u ts ih =>
      intro acc h t ht hts
      by_cases hsu : src = u
      · subst hsu
        simp only [buildRow, if_pos rfl] at h
        rcases List.mem_cons.mp ht with ht | ht
        · exact absurd ht.symm (by exact fun hc => hts (hc ▸ rfl))
        · exact ih acc h t ht hts
      · cases hcalc : calculate_exchange_rate base src u rates with
        | none => simp [buildRow, hsu, hcalc] at h
        | some r =>
            simp only [buildRow, if_neg hsu, hcalc] at h
            rcases List.mem_cons.mp ht with ht | ht
            · subst ht; simp [hcalc]
            · exact ih _ h t ht hts

theorem updateLoop_row_ok (base : String) (rates : Rates) (allC : List String) :
    ∀ (cs : List String) (m : Matrix),
      (updateLoop base rates allC cs m).2 = true →
      ∀ c ∈ cs, (buildRow base c rates allC []).2 = true := by
  intro cs
  induction cs with
  | nil => intro m _ c hc; exact absurd hc (List.not_mem_nil c)
  | cons d cs ih =>
      intro m h c hc
      cases hb : buildRow base d rates allC [] with
      | mk row ok =>
          cases ok with
          | false => simp [updateLoop, hb] at h
          | true =>
              simp only [updateLoop, hb] at h
              rcases List.mem_cons.mp hc with hc | hc
              · subst hc; rw [hb]
              · exact ih _ h c hc

theorem updateLoop_lookup (base : String) (rates : Rates) (allC : List String) :
    ∀ (cs : List String) (m : Matrix),
      (updateLoop base rates allC cs m).2 = true →
      ∀ A, lookupA (updateLoop base rates allC cs m).1 A =
        if A ∈ cs then some (buildRow base A rates allC []).1
        else lookupA m A := by
  intro cs
  induction cs with
  | nil => intro m _ A; simp [updateLoop]
  | cons d cs ih =>
      intro m h A
      cases hb : buildRow base d rates allC [] with
      | mk row ok =>
          cases ok with
          | false => simp [updateLoop, hb] at h
          | true =>
              simp only [updateLoop, hb] at h ⊢
              rw [ih _ h A, lookupA_setA]
              by_cases hmem : A ∈ cs
              · simp [hmem, List.mem_cons]
              · by_cases hAd : A = d
                · subst hAd
                  simp [hmem, hb, List.mem_cons]
                · have : ¬(A ∈ d :: cs) := by
                    intro hc
                    rcases List.mem_cons.mp hc with hc | hc
                    · exact hAd hc
                    · exact hmem hc
                  simp [hmem, hAd, this]

/-- After a completed `update_all_exchange_rates(base, rates)`, each
supported source has a row whose entries are exactly the
`calculate_exchange_rate` values for the other targets of the loop. -/
theorem update_success_row (base : String) (rates : Rates) (m : Matrix)
    (h : (update_all_exchange_rates (some base) (some rates) m).2 = true)
    (A : String) (hA : A ∈ supportedCodes) :
    lookupA (update_all_exchange_rates (some base) (some rates) m).1 A =
      some (buildRow base A rates supportedCodes []).1 ∧
    ∀ B, lookupA (buildRow base A rates supportedCodes []).1 B =
      if B ∈ supportedCodes ∧ B ≠ A then
        calculate_exchange_rate base A B rates
      else none := by
  have h' : (updateLoop base rates supportedCodes supportedCodes m).2 = true := h
  constructor
  · have := updateLoop_lookup base rates supportedCodes supportedCodes m h' A
    simpa [update_all_exchange_rates, hA] using this
  · intro B
    have hrow := updateLoop_row_ok base rates supportedCodes supportedCodes m h' A hA
    have := buildRow_lookup base A rates supportedCodes [] hrow B
    simpa [lookupA] using this

end CurrencyConverter

open CurrencyConverter

/-- C3: for every base currency, every pair of distinct supported
currencies (src, tgt), and every quote mapping with a nonzero entry for
each supported currency other than the base, the computed factor equals
`rates[tgt]` if src is the base, `1 / rates[src]` if tgt is the base,
and `rates[tgt] / rates[src]` otherwise. -/
theorem calculate_exchange_rate_triangulation
    (base src tgt : String) (rates : Rates) (rs rt : ℚ)
    (hsrc : src ∈ supportedCodes) (htgt : tgt ∈ supportedCodes)
    (hne : src ≠ tgt)
    (hs : src ≠ base → lookupA rates src = some rs ∧ rs ≠ 0)
    (ht : tgt ≠ base → lookupA rates tgt = some rt ∧ rt ≠ 0) :
    calculate_exchange_rate base src tgt rates =
      some (if src = base then rt
            else if tgt = base then 1 / rs
            else rt / rs) := by
  by_cases h1 : src = base
  · have htb : tgt ≠ base := fun hc => hne (h1.trans hc.symm)
    simp [calculate_exchange_rate, h1, (ht htb).1]
  · by_cases h2 : tgt = base
    · simp [calculate_exchange_rate, h1, h2, (hs h1).1, (hs h1).2]
    · simp [calculate_exchange_rate, h1, h2, (hs h1).1, (hs h1).2,
        (ht h2).1]

/-- C3 witness: base `USD` quoting `EUR ↦ 2`, `GBP ↦ 4` gives the
triangulated factor `4 / 2 = 2` for `EUR → GBP`. -/
theorem calculate_exchange_rate_triangulation_witness :
    calculate_exchange_rate "USD" "EUR" "GBP"
      [("EUR", (2 : ℚ)), ("GBP", 4)] = some 2 := by
  have h := calculate_exchange_rate_triangulation "USD" "EUR" "GBP"
    [("EUR", (2 : ℚ)), ("GBP", 4)] 2 4
    (by decide) (by decide) (by decide)
    (fun _ => ⟨by decide, by norm_num⟩)
    (fun _ => ⟨by decide, by norm_num⟩)
  rw [h]
  simp <;> norm_num

/-- C5: whenever the matrix stores a factor for (source, target) and the
amount is numeric, `convert` answers with the source code, target code,
original amount, and `converted_amount = amount * factor`. -/
theorem handle_convert_currency_success (m : Matrix) (src tgt : String)
    (amount r : ℚ) (row : Row)
    (hrow : lookupA m src = some row) (hr : lookupA row tgt = some r) :
    handle_convert_currency m ⟨some src, some tgt, .num amount⟩ =
      .conversion src tgt amount (amount * r) := by
  simp [handle_convert_currency, hrow, hr]

/-- C5 witness: `convert("USD","EUR",100)` with `matrix[USD][EUR] = 0.9`
returns `converted_amount = 90`. -/
theorem handle_convert_currency_success_witness :
    handle_convert_currency [("USD", [("EUR", (9 : ℚ)/10)])]
      ⟨some "USD", some "EUR", .num 100⟩ =
      .conversion "USD" "EUR" 100 90 := by
  have h := handle_convert_currency_success
    [("USD", [("EUR", (9 : ℚ)/10)])] "USD" "EUR" 100 ((9 : ℚ)/10)
    [("EUR", (9 : ℚ)/10)] (by simp [lookupA]) (by simp [lookupA])
  rw [h]
  norm_num

/-- C7: a conversion request whose amount is not numeric yields the
`InvalidAmount` error response, and the step leaves the cache matrix
unchanged. -/
theorem invalid_amount_error (m : Matrix) (d : ConvertData)
    (h : isNumericAmount d.amount = false) :
    step m (.request (.convert_currency d)) =
      (m, some (.error "Amount must be a number")) := by
  cases hd : d.amount with
  | num q => rw [hd] at h; simp [isNumericAmount] at h
  | str s =>
      simp [step, process_request, handle_convert_currency, hd]
  | null =>
      simp [step, process_request, handle_convert_currency, hd]

/-- C7 witness: a string amount is rejected and the cache is untouched. -/
theorem invalid_amount_error_witness :
    isNumericAmount (JVal.str "abc") = false ∧
    step [("USD", [("EUR", (2 : ℚ))])]
        (.request (.convert_currency ⟨some "USD", some "EUR", .str "abc"⟩)) =
      ([("USD", [("EUR", (2 : ℚ))])],
        some (.error "Amount must be a number")) :=
  ⟨rfl, invalid_amount_error [("USD", [("EUR", (2 : ℚ))])]
    ⟨some "USD", some "EUR", .str "abc"⟩ rfl⟩

/-- C6: when the source/target pair (for `convert`) or the code (for
`rates_for`) is not present in the current matrix — including the empty
pre-refresh cache — both handlers return a structured error response
(they are total functions, so they cannot raise). -/
theorem unknown_currency_error (m : Matrix) (d : ConvertData)
    (c : Option String)
    (h1 : pairUnknown m d.source_currency d.target_currency = true)
    (h2 : codeUnknown m c = true) :
    isError (handle_convert_currency m d) = true ∧
    isError (handle_get_exchange_rates m c) = true := by
  constructor
  · obtain ⟨src, tgt, a⟩ := d
    cases a with
    | num q =>
        cases src with
        | none => simp [handle_convert_currency, isError]
        | some s =>
            cases hls : lookupA m s with
            | none => simp [handle_convert_currency, isError, hls]
            | some row =>
                cases tgt with
                | none => simp [handle_convert_currency, isError, hls]
                | some t =>
                    simp only [pairUnknown, hls] at h1
                    have hlt : lookupA row t = none := by
                      simpa using h1
                    simp [handle_convert_currency, isError, hls, hlt]
    | str s => simp [handle_convert_currency, isError]
    | null => simp [handle_convert_currency, isError]
  · cases c with
    | none => simp [handle_get_exchange_rates, isError]
    | some s =>
        simp only [codeUnknown] at h2
        have hls : lookupA m s = none := by simpa using h2
        simp [handle_get_exchange_rates, isError, hls]

/-- C6 witness: against the empty cache (before any successful refresh),
both `convert` and `rates_for` answer with a structured error. -/
theorem unknown_currency_error_witness :
    pairUnknown [] (some "USD") (some "EUR") = true ∧
    codeUnknown [] (some "USD") = true ∧
    (isError (handle_convert_currency []
        ⟨some "USD", some "EUR", .num 100⟩) = true ∧
     isError (handle_get_exchange_rates [] (some "USD")) = true) :=
  ⟨rfl, rfl, unknown_currency_error []
    ⟨some "USD", some "EUR", .num 100⟩ (some "USD") rfl rfl⟩

/-- C10: after a successful rebuild the matrix stores no self pair, so
`convert(A, A, amount)` answers the `Invalid currency code` error, not an
identity conversion. -/
theorem self_pair_conversion_error (base : String) (rates : Rates)
    (m : Matrix) (A : String) (amount : ℚ)
    (hA : A ∈ supportedCodes)
    (h : (update_all_exchange_rates (some base) (some rates) m).2 = true) :
    handle_convert_currency
        (update_all_exchange_rates (some base) (some rates) m).1
        ⟨some A, some A, .num amount⟩ = .error "Invalid currency code" := by
  obtain ⟨hrow, hentries⟩ := update_success_row base rates m h A hA
  have hAA : lookupA (buildRow base A rates supportedCodes []).1 A = none := by
    rw [hentries A]; simp
  simp [handle_convert_currency, hrow, hAA]

/-- C10 witness: after a successful rebuild from base `USD`,
`convert("USD","USD",7)` is rejected. -/
theorem self_pair_conversion_error_witness :
    "USD" ∈ supportedCodes ∧
    (update_all_exchange_rates (some "USD")
        (some [("EUR", (2 : ℚ)), ("JPY", 4), ("GBP", 8)]) []).2 = true ∧
    handle_convert_currency
        (update_all_exchange_rates (some "USD")
          (some [("EUR", (2 : ℚ)), ("JPY", 4), ("GBP", 8)]) []).1
        ⟨some "USD", some "USD", .num 7⟩ = .error "Invalid currency code" :=
  ⟨by decide,
   by simp [update_all_exchange_rates, updateLoop, buildRow,
        calculate_exchange_rate, lookupA, setA, supportedCodes,
        SUPPORTED_CURRENCIES] <;> norm_num,
   self_pair_conversion_error "USD"
     [("EUR", (2 : ℚ)), ("JPY", 4), ("GBP", 8)] [] "USD" 7 (by decide)
     (by simp [update_all_exchange_rates, updateLoop, buildRow,
        calculate_exchange_rate, lookupA, setA, supportedCodes,
        SUPPORTED_CURRENCIES] <;> norm_num)⟩

/-- C4: after every successful rebuild, the source row of any supported
currency A has an entry exactly for each supported B distinct from A —
in particular no `matrix[A][A]` entry exists. -/
theorem rebuild_matrix_complete (base : String) (rates : Rates) (m : Matrix)
    (h : (update_all_exchange_rates (some base) (some rates) m).2 = true)
    (A : String) (hA : A ∈ supportedCodes) (B : String) :
    ((getEntry (update_all_exchange_rates (some base) (some rates) m).1
        A B).isSome = true) ↔ (B ∈ supportedCodes ∧ B ≠ A) := by
  obtain ⟨hrow, hentries⟩ := update_success_row base rates m h A hA
  have h' : (updateLoop base rates supportedCodes supportedCodes m).2
      = true := h
  have hok : (buildRow base A rates supportedCodes []).2 = true :=
    updateLoop_row_ok base rates supportedCodes supportedCodes m h' A hA
  constructor
  · intro hsome
    by_contra hc
    have hnone : lookupA (buildRow base A rates supportedCodes []).1 B
        = none := by
      rw [hentries B, if_neg hc]
    simp [getEntry, hrow, hnone] at hsome
  · intro hc
    have hcalc := buildRow_calc_isSome base A rates supportedCodes []
      hok B hc.1 hc.2
    have heq : lookupA (buildRow base A rates supportedCodes []).1 B =
        calculate_exchange_rate base A B rates := by
      rw [hentries B, if_pos hc]
    simp [getEntry, hrow, heq, hcalc]

/-- Any factor produced by `calculate_exchange_rate` is positive when
every quote used is positive. -/
theorem calculate_exchange_rate_pos (base A B : String) (rates : Rates)
    (hAB : A ≠ B)
    (hvA : A ≠ base → ∃ r, lookupA rates A = some r ∧ 0 < r)
    (hvB : B ≠ base → ∃ r, lookupA rates B = some r ∧ 0 < r)
    (r : ℚ) (h : calculate_exchange_rate base A B rates = some r) :
    0 < r := by
  unfold calculate_exchange_rate at h
  by_cases h1 : A = base
  · rw [if_pos h1] at h
    obtain ⟨rb, hrb, hrbpos⟩ := hvB (fun hc => hAB (h1.trans hc.symm))
    rw [hrb, Option.some.injEq] at h
    exact h ▸ hrbpos
  · rw [if_neg h1] at h
    obtain ⟨ra, hra, hrapos⟩ := hvA h1
    by_cases h2 : B = base
    · rw [if_pos h2] at h
      simp only [hra] at h
      rw [if_neg hrapos.ne', Option.some.injEq] at h
      subst h
      exact one_div_pos.mpr hrapos
    · rw [if_neg h2] at h
      obtain ⟨rb, hrb, hrbpos⟩ := hvB h2
      simp only [hra, hrb] at h
      rw [if_neg hrapos.ne', Option.some.injEq] at h
      subst h
      exact div_pos hrbpos hrapos

/-- The factors for (A, B) and (B, A) are exact reciprocals whenever the
code computes both. -/
theorem calculate_exchange_rate_reciprocal (base A B : String)
    (rates : Rates) (hAB : A ≠ B) (r r' : ℚ)
    (h : calculate_exchange_rate base A B rates = some r)
    (h' : calculate_exchange_rate base B A rates = some r') :
    r * r' = 1 := by
  unfold calculate_exchange_rate at h h'
  by_cases h1 : A = base
  · have h2 : B ≠ base := fun hc => hAB (h1.trans hc.symm)
    rw [if_pos h1] at h
    rw [if_neg h2, if_pos h1] at h'
    simp only [h] at h'
    by_cases hz : r = 0
    · rw [if_pos hz] at h'; simp at h'
    · rw [if_neg hz, Option.some.injEq] at h'
      subst h'
      field_simp
  · by_cases h2 : B = base
    · rw [if_neg h1, if_pos h2] at h
      rw [if_pos h2] at h'
      simp only [h'] at h
      by_cases hz : r' = 0
      · rw [if_pos hz] at h; simp at h
      · rw [if_neg hz, Option.some.injEq] at h
        subst h
        field_simp
    · rw [if_neg h1, if_neg h2] at h
      rw [if_neg h2, if_neg h1] at h'
      cases hlb : lookupA rates B with
      | none =>
          cases hla : lookupA rates A <;> simp [hla, hlb] at h
      | some rb =>
          cases hla : lookupA rates A with
          | none => simp [hla, hlb] at h
          | some ra =>
              simp only [hla, hlb] at h h'
              by_cases hza : ra = 0
              · simp [hza] at h
              · rw [if_neg hza, Option.some.injEq] at h
                by_cases hzb : rb = 0
                · simp [hzb] at h'
                · rw [if_neg hzb, Option.some.injEq] at h'
                  subst h; subst h'
                  field_simp

/-- C8 (amended): for distinct supported A, B and a quote set whose
required rates are all present and positive, a completed rebuild stores
factors with `matrix[A][B] > 0` and `matrix[A][B] * matrix[B][A] = 1`
exactly (the embedding computes in ℚ). -/
theorem matrix_entries_positive_reciprocal (base : String) (rates : Rates)
    (m : Matrix) (A B : String)
    (hA : A ∈ supportedCodes) (hB : B ∈ supportedCodes) (hAB : A ≠ B)
    (hval : ∀ c ∈ supportedCodes, c ≠ base →
      ∃ r, lookupA rates c = some r ∧ 0 < r)
    (h : (update_all_exchange_rates (some base) (some rates) m).2 = true) :
    ∃ rAB rBA : ℚ,
      getEntry (update_all_exchange_rates (some base) (some rates) m).1
        A B = some rAB ∧
      getEntry (update_all_exchange_rates (some base) (some rates) m).1
        B A = some rBA ∧
      0 < rAB ∧ rAB * rBA = 1 := by
  have h' : (updateLoop base rates supportedCodes supportedCodes m).2
      = true := h
  obtain ⟨hrowA, hentA⟩ := update_success_row base rates m h A hA
  obtain ⟨hrowB, hentB⟩ := update_success_row base rates m h B hB
  have hokA := updateLoop_row_ok base rates supportedCodes supportedCodes
    m h' A hA
  have hokB := updateLoop_row_ok base rates supportedCodes supportedCodes
    m h' B hB
  have hsAB := buildRow_calc_isSome base A rates supportedCodes [] hokA
    B hB (Ne.symm hAB)
  have hsBA := buildRow_calc_isSome base B rates supportedCodes [] hokB
    A hA hAB
  obtain ⟨rAB, hcAB⟩ := Option.isSome_iff_exists.mp hsAB
  obtain ⟨rBA, hcBA⟩ := Option.isSome_iff_exists.mp hsBA
  refine ⟨rAB, rBA, ?_, ?_, ?_, ?_⟩
  · simp only [getEntry, hrowA]
    rw [hentA B, if_pos ⟨hB, Ne.symm hAB⟩]
    exact hcAB
  · simp only [getEntry, hrowB]
    rw [hentB A, if_pos ⟨hA, hAB⟩]
    exact hcBA
  · exact calculate_exchange_rate_pos base A B rates hAB
      (fun hc => hval A hA hc) (fun hc => hval B hB hc) rAB hcAB
  · exact calculate_exchange_rate_reciprocal base A B rates hAB rAB rBA
      hcAB hcBA

/-- C8 witness: positive quotes `EUR ↦ 2, JPY ↦ 4, GBP ↦ 8` against base
`USD` give positive, mutually reciprocal entries for (EUR, JPY). -/
theorem matrix_entries_positive_reciprocal_witness :
    (update_all_exchange_rates (some "USD")
        (some [("EUR", (2 : ℚ)), ("JPY", 4), ("GBP", 8)]) []).2 = true ∧
    (∃ rAB rBA : ℚ,
      getEntry (update_all_exchange_rates (some "USD")
        (some [("EUR", (2 : ℚ)), ("JPY", 4), ("GBP", 8)]) []).1
        "EUR" "JPY" = some rAB ∧
      getEntry (update_all_exchange_rates (some "USD")
        (some [("EUR", (2 : ℚ)), ("JPY", 4), ("GBP", 8)]) []).1
        "JPY" "EUR" = some rBA ∧
      0 < rAB ∧ rAB * rBA = 1) :=
  ⟨by simp [update_all_exchange_rates, updateLoop, buildRow,
      calculate_exchange_rate, lookupA, setA, supportedCodes,
      SUPPORTED_CURRENCIES] <;> norm_num,
   matrix_entries_positive_reciprocal "USD"
     [("EUR", (2 : ℚ)), ("JPY", 4), ("GBP", 8)] [] "EUR" "JPY"
     (by decide) (by decide) (by decide)
     (by
       intro c hc hcb
       simp only [supportedCodes, SUPPORTED_CURRENCIES, List.map_cons,
         List.map_nil, List.mem_cons, List.not_mem_nil, or_false] at hc
       rcases hc with rfl | rfl | rfl | rfl
       · exact absurd rfl hcb
       · exact ⟨2, by simp [lookupA], by norm_num⟩
       · exact ⟨4, by simp [lookupA], by norm_num⟩
       · exact ⟨8, by simp [lookupA], by norm_num⟩)
     (by simp [update_all_exchange_rates, updateLoop, buildRow,
        calculate_exchange_rate, lookupA, setA, supportedCodes,
        SUPPORTED_CURRENCIES] <;> norm_num)⟩

/-- C8 counterexample: the claim as stated (rates merely present and
nonzero) is false: a negative quote is nonzero yet yields
`matrix[USD][EUR] = -1`, which is not positive, on a rebuild the builder
completes. -/
theorem matrix_entry_not_pos_counterexample :
    (update_all_exchange_rates (some "USD")
        (some [("EUR", (-1 : ℚ)), ("JPY", 1), ("GBP", 1)]) []).2 = true ∧
    getEntry (update_all_exchange_rates (some "USD")
        (some [("EUR", (-1 : ℚ)), ("JPY", 1), ("GBP", 1)]) []).1
      "USD" "EUR" = some (-1) ∧
    ¬ (0 : ℚ) < (-1 : ℚ) := by
  refine ⟨?_, ?_, by norm_num⟩ <;>
    simp [update_all_exchange_rates, updateLoop, buildRow,
      calculate_exchange_rate, lookupA, setA, supportedCodes,
      SUPPORTED_CURRENCIES, getEntry] <;> norm_num

/-- C9: `supported_currencies()` needs no cache state, always returns
the same mapping, and its entries are in ascending order by code. -/
theorem supported_currencies_stable :
    (∀ m : Matrix, process_request m .get_supported_currencies =
        .supported handle_get_supported_currencies) ∧
    handle_get_supported_currencies =
      [("EUR", "Euro"), ("GBP", "British Pound"),
       ("JPY", "Japenese Yen"), ("USD", "United States Dollar")] ∧
    List.Chain' (fun p q => p.1 < q.1) handle_get_supported_currencies := by
  have h2 : handle_get_supported_currencies =
      [("EUR", "Euro"), ("GBP", "British Pound"),
       ("JPY", "Japenese Yen"), ("USD", "United States Dollar")] := by
    simp [handle_get_supported_currencies, sortByKey, insertSorted,
      SUPPORTED_CURRENCIES] <;> decide
  refine ⟨fun m => rfl, h2, ?_⟩
  rw [h2]
  simp only [List.chain'_cons, List.chain'_singleton, and_true]
  refine ⟨?_, ?_, ?_⟩ <;> (rw [String.lt_iff_toList_lt]; decide)

/-- C1: the code violates the claim: a refresh whose fetched quote set
is incomplete fails midway through the rebuild but erases part of the
previously published matrix.  Before the failed refresh the lookup
`USD → JPY` answered `4`; after it, the same lookup fails. -/
theorem failed_refresh_erases_data :
    (update_all_exchange_rates (some "USD") (some [("EUR", (2 : ℚ))])
        (fetch_exchange_rates
          (.success (some "USD")
            (some [("EUR", (2 : ℚ)), ("JPY", 4), ("GBP", 8)])) [])).2
      = false ∧
    getEntry (fetch_exchange_rates
        (.success (some "USD")
          (some [("EUR", (2 : ℚ)), ("JPY", 4), ("GBP", 8)])) [])
      "USD" "JPY" = some 4 ∧
    getEntry (fetch_exchange_rates
        (.success (some "USD") (some [("EUR", (2 : ℚ))]))
        (fetch_exchange_rates
          (.success (some "USD")
            (some [("EUR", (2 : ℚ)), ("JPY", 4), ("GBP", 8)])) []))
      "USD" "JPY" = none := by
  refine ⟨?_, ?_, ?_⟩ <;>
    simp [fetch_exchange_rates, update_all_exchange_rates, updateLoop,
      buildRow, calculate_exchange_rate, lookupA, setA, supportedCodes,
      SUPPORTED_CURRENCIES, getEntry] <;> norm_num

/-- C2: the code violates the claim: with a quote set missing `JPY` and
`GBP` the builder stops midway (flag false, modelling the raised
`KeyError`) yet has already published a partial `USD` row; with a zero
`EUR` quote it stops at the `1/0` division having published a full `USD`
row and an empty `EUR` row. -/
theorem builder_publishes_incomplete_matrix :
    (update_all_exchange_rates (some "USD")
        (some [("EUR", (2 : ℚ))]) []).2 = false ∧
    (update_all_exchange_rates (some "USD")
        (some [("EUR", (2 : ℚ))]) []).1 = [("USD", [("EUR", 2)])] ∧
    (update_all_exchange_rates (some "USD")
        (some [("EUR", (0 : ℚ)), ("JPY", 4), ("GBP", 8)]) []).2 = false ∧
    lookupA (update_all_exchange_rates (some "USD")
        (some [("EUR", (0 : ℚ)), ("JPY", 4), ("GBP", 8)]) []).1 "USD"
      = some [("EUR", 0), ("JPY", 4), ("GBP", 8)] := by
  refine ⟨?_, ?_, ?_, ?_⟩ <;>
    simp [update_all_exchange_rates, updateLoop, buildRow,
      calculate_exchange_rate, lookupA, setA, supportedCodes,
      SUPPORTED_CURRENCIES] <;> norm_num

/-- C4 witness: after a successful rebuild from base `USD`, the row of
`USD` has an entry for `EUR` (a supported currency distinct from it). -/
theorem rebuild_matrix_complete_witness :
    (update_all_exchange_rates (some "USD")
        (some [("EUR", (2 : ℚ)), ("JPY", 4), ("GBP", 8)]) []).2 = true ∧
    "USD" ∈ supportedCodes ∧
    (((getEntry (update_all_exchange_rates (some "USD")
        (some [("EUR", (2 : ℚ)), ("JPY", 4), ("GBP", 8)]) []).1
        "USD" "EUR").isSome = true) ↔
      ("EUR" ∈ supportedCodes ∧ "EUR" ≠ "USD")) :=
  ⟨by simp [update_all_exchange_rates, updateLoop, buildRow,
      calculate_exchange_rate, lookupA, setA, supportedCodes,
      SUPPORTED_CURRENCIES] <;> norm_num,
   by decide,
   rebuild_matrix_complete "USD"
     [("EUR", (2 : ℚ)), ("JPY", 4), ("GBP", 8)] []
     (by simp [update_all_exchange_rates, updateLoop, buildRow,
        calculate_exchange_rate, lookupA, setA, supportedCodes,
        SUPPORTED_CURRENCIES] <;> norm_num)
     "USD" (by decide) "EUR"⟩
